import Mathlib

/-!
Verification of the torrent scheduler (`client/torrent/scheduler/scheduler.go`).

We shallowly embed the scheduler's functions as pure Lean definitions.
External collaborators (torrent archive, connection factory, dispatcher,
HTTP client, event loop) perform I/O; each call into one of them is
parametrised by its outcome (an `Except`/`Bool`/oracle argument), so every
control-flow path of the Go code becomes a branch of the Lean definition.
Side effects that the claims speak about (closing connections, sending
events, delivering on result channels, calling into a dispatcher) are
reified as actions collected in a trace list, in the order the Go code
performs them.
-/

namespace Scheduler

/-- Fixed-length opaque peer identifier (`torlib.PeerID`); modelled as `Nat`. -/
abbrev PeerID := Nat

/-- Fixed-length opaque content identifier (`torlib.InfoHash`); modelled as `Nat`. -/
abbrev InfoHash := Nat

/-- Peer descriptor returned by the tracker (`torlib.PeerInfo`). -/
structure PeerInfo where
  peerID : PeerID
  ip : String
  port : Nat
  deriving DecidableEq, Repr

/-- The slice of `storage.Torrent` the scheduler reads: its name, info hash,
total length and bytes downloaded so far. -/
structure Torrent where
  name : String
  infoHash : InfoHash
  length : Int
  bytesDownloaded : Int
  deriving DecidableEq, Repr

/-- A validated connection (`*conn`): identified by remote peer id and the
torrent's info hash, plus a tag distinguishing distinct raw sockets. -/
structure Conn where
  peerID : PeerID
  infoHash : InfoHash
  tag : Nat
  deriving DecidableEq, Repr

/-- The handshake message (`*handshake`): carries the remote peer id, the
torrent's info hash and its display name. -/
structure Handshake where
  peerID : PeerID
  infoHash : InfoHash
  name : String
  deriving DecidableEq, Repr

/-- Per-torrent dispatcher handle (`*dispatcher`): the scheduler only reads
its identity and its torrent. The transfer engine itself is a collaborator. -/
structure Dispatcher where
  id : Nat
  torrent : Torrent
  deriving DecidableEq, Repr

/-- Errors surfaced by the embedded scheduler code. Each constructor names
the Go error value or `fmt.Errorf` site it stands for. -/
inductive Err
  | torrentAlreadyRegistered                  -- ErrTorrentAlreadyRegistered
  | schedulerStopped                          -- ErrSchedulerStopped
  | archive (msg : String)                    -- torrentArchive.GetTorrent failure
  | handshakeRecv (msg : String)              -- receiveHandshake failure
  | reciprocate (msg : String)                -- ReciprocateHandshake failure
  | dial (msg : String)                       -- net.DialTimeout failure
  | handshakeSend (msg : String)              -- SendAndReceiveHandshake failure
  | unexpectedPeerID                          -- "unexpected peer id from handshaked conn"
  | cannotAddConnScheduler (e : Err)          -- "cannot add conn to scheduler: %s"
  | torrentNotCreated                         -- "torrent must be created before sending handshake"
  | cannotAddConnDispatcher (msg : String)    -- "cannot add conn to dispatcher: %s"
  | duplicateConn                             -- connState duplicate rejection
  | blacklistedConn                           -- connState blacklist rejection
  | requestFailed (msg : String)              -- "request failed: %s"
  | requestNotOk (status : Nat)               -- "request not ok: %d - %s"
  | unmarshalFailed (msg : String)            -- "unmarshal failed: %s"
  | dispatcherReject (msg : String)           -- dispatcher.AddConn failure
  deriving DecidableEq, Repr

/-- The closed set of events consumed by the event loop. -/
inductive Event
  | newTorrent (t : Torrent) (errc : Nat)
  | incomingHandshake (nc : Nat) (h : Handshake)
  | incomingConn (c : Conn) (t : Torrent)
  | outgoingConn (c : Conn) (t : Torrent)
  | failedHandshake (peerID : PeerID) (infoHash : InfoHash)
  | announceTick
  | announceResponse (infoHash : InfoHash) (peers : List PeerInfo)
  | announceFailure (dispatcherId : Nat)
  | preemptionTick
  | cleanupBlacklist
  | emitStats
  deriving DecidableEq, Repr

/-! ## AddTorrent (claim C2)

`Scheduler.AddTorrent` makes a buffered channel of capacity 1, looks the
torrent up in the archive, and either delivers the lookup error, or sends a
`newTorrentEvent` to the event loop, delivering `ErrSchedulerStopped` when
the loop refuses it. The archive lookup outcome and the event loop's
`Send` answer are the two external outcomes parametrising the embedding. -/

/-- Result of one `AddTorrent` call: the capacity the result channel was
created with, the errors `AddTorrent` itself delivered on it (in order),
and the event it handed to the event loop, if any. -/
structure AddTorrentResult where
  chanCapacity : Nat
  chanSends : List Err
  eventSent : Option Event
  deriving DecidableEq, Repr

/-- `Scheduler.AddTorrent`. `errcId` tags the fresh result channel,
`archive` is the outcome of `torrentArchive.GetTorrent`, and `sendOk` is
the boolean returned by `eventLoop.Send` (false once the loop stopped). -/
def addTorrent (errcId : Nat) (archive : Except Err Torrent) (sendOk : Bool) :
    AddTorrentResult :=
  match archive with
  | .error e => { chanCapacity := 1, chanSends := [e], eventSent := none }
  | .ok t =>
    if sendOk then
      { chanCapacity := 1, chanSends := [], eventSent := some (.newTorrent t errcId) }
    else
      { chanCapacity := 1, chanSends := [.schedulerStopped], eventSent := none }

/-! ## Connection admission (claims C4, C5, C10)

`addOutgoingConn` / `addIncomingConn` run inside the event loop: they move
the connection to active in the connection-state tracker, locate (incoming:
or create) the torrent's `torrentControl`, and hand the connection to its
dispatcher. The tracker and the dispatcher live outside `src/`; the tracker
is modelled from the spec and the dispatcher's `AddConn` verdict is an
oracle argument. -/

/-- Modelled from the spec: the connection-state tracker (`connState`, whose
source is not under src/). `MovePendingToActive(connection) -> error` fails
on a duplicate (peer, torrent) already active or on a blacklist hit, and
otherwise records the connection as active; `ActiveConns` is the `active`
list. -/
structure ConnState where
  active : List (PeerID × InfoHash)
  blacklist : List (PeerID × InfoHash)
  deriving DecidableEq, Repr

/-- Modelled from the spec: `MovePendingToActive` (see `ConnState`). -/
def ConnState.MovePendingToActive (cs : ConnState) (c : Conn) :
    Except Err ConnState :=
  if (c.peerID, c.infoHash) ∈ cs.active then .error .duplicateConn
  else if (c.peerID, c.infoHash) ∈ cs.blacklist then .error .blacklistedConn
  else .ok { cs with active := (c.peerID, c.infoHash) :: cs.active }

/-- `torrentControl`: pending `AddTorrent` result channels, the torrent's
dispatcher (by id), and the completion flag. -/
structure TorrentControl where
  Errors : List Nat
  DispatcherId : Nat
  Complete : Bool
  deriving DecidableEq, Repr

/-- `newTorrentControl`: a fresh control holding only its dispatcher. -/
def newTorrentControl (d : Nat) : TorrentControl :=
  { Errors := [], DispatcherId := d, Complete := false }

/-- The event-loop-owned scheduler state the admission functions touch:
the connection-state tracker and the `torrentControls` map (as an
association list, newest binding first). -/
structure SchedState where
  connState : ConnState
  torrentControls : List (InfoHash × TorrentControl)
  deriving DecidableEq, Repr

/-- Lookup in the `torrentControls` map (`s.torrentControls[h]`). -/
def lookupControl (l : List (InfoHash × TorrentControl)) (h : InfoHash) :
    Option TorrentControl :=
  match l with
  | [] => none
  | (k, v) :: rest => if k = h then some v else lookupControl rest h

/-- Observable actions of the admission functions, in program order. -/
inductive AddAction
  | closeConn (c : Conn)                   -- c.Close()
  | consultControls (h : InfoHash)         -- read of s.torrentControls[h]
  | createControl (h : InfoHash) (d : Nat) -- dispatcherFactory.New + registration
  | dispatchConn (d : Nat) (c : Conn)      -- ctrl.Dispatcher.AddConn(c)
  deriving DecidableEq, Repr

/-- `Scheduler.addOutgoingConn`: move to active (failure closes the
connection and aborts), require an existing control (outbound dials only
target known torrents), then hand the connection to the dispatcher.
`addConn` is the dispatcher collaborator's verdict, keyed by dispatcher id. -/
def addOutgoingConn (st : SchedState) (addConn : Nat → Conn → Option String)
    (c : Conn) (t : Torrent) :
    Except Err Unit × SchedState × List AddAction :=
  match st.connState.MovePendingToActive c with
  | .error e => (.error (.cannotAddConnScheduler e), st, [.closeConn c])
  | .ok cs =>
    let st1 : SchedState := { st with connState := cs }
    match lookupControl st1.torrentControls t.infoHash with
    | none => (.error .torrentNotCreated, st1, [.consultControls t.infoHash])
    | some ctrl =>
      match addConn ctrl.DispatcherId c with
      | some m =>
        (.error (.cannotAddConnDispatcher m), st1,
          [.consultControls t.infoHash, .dispatchConn ctrl.DispatcherId c])
      | none =>
        (.ok (), st1,
          [.consultControls t.infoHash, .dispatchConn ctrl.DispatcherId c])

/-- `Scheduler.addIncomingConn`: move to active (failure closes the
connection and aborts), create and register a control via the dispatcher
factory when the torrent is unseen, then hand the connection to the
dispatcher. `newDispatcherId` identifies the dispatcher the factory would
build for this torrent. -/
def addIncomingConn (st : SchedState) (addConn : Nat → Conn → Option String)
    (newDispatcherId : Nat) (c : Conn) (t : Torrent) :
    Except Err Unit × SchedState × List AddAction :=
  match st.connState.MovePendingToActive c with
  | .error e => (.error (.cannotAddConnScheduler e), st, [.closeConn c])
  | .ok cs =>
    let st1 : SchedState := { st with connState := cs }
    match lookupControl st1.torrentControls t.infoHash with
    | none =>
      let ctrl := newTorrentControl newDispatcherId
      let st2 : SchedState :=
        { st1 with torrentControls := (t.infoHash, ctrl) :: st1.torrentControls }
      match addConn ctrl.DispatcherId c with
      | some m =>
        (.error (.cannotAddConnDispatcher m), st2,
          [.consultControls t.infoHash,
           .createControl t.infoHash newDispatcherId,
           .dispatchConn ctrl.DispatcherId c])
      | none =>
        (.ok (), st2,
          [.consultControls t.infoHash,
           .createControl t.infoHash newDispatcherId,
           .dispatchConn ctrl.DispatcherId c])
    | some ctrl =>
      match addConn ctrl.DispatcherId c with
      | some m =>
        (.error (.cannotAddConnDispatcher m), st1,
          [.consultControls t.infoHash, .dispatchConn ctrl.DispatcherId c])
      | none =>
        (.ok (), st1,
          [.consultControls t.infoHash, .dispatchConn ctrl.DispatcherId c])

/-! ## Stop teardown (claim C1)

`Scheduler.Stop`'s body (inside `once.Do`) is straight-line teardown code;
we embed it as the trace of actions it performs, in program order, over the
event-loop-owned state it reads (`connState.ActiveConns()` and the pending
channels of `torrentControls`). -/

/-- Observable actions of the `Stop` teardown sequence, in program order. -/
inductive StopAction
  | signalDone                               -- close(s.done)
  | closeListener                            -- s.listener.Close()
  | stopEventLoop                            -- s.eventLoop.Stop()
  | waitLoops                                -- s.wg.Wait()
  | closeActive (p : PeerID) (h : InfoHash)  -- c.Close() over ActiveConns()
  | sendErr (ch : Nat) (e : Err)             -- errc <- ErrSchedulerStopped
  deriving DecidableEq, Repr

/-- The still-pending `AddTorrent` result channels recorded across all
torrent controls, in iteration order. -/
def pendingChans (st : SchedState) : List Nat :=
  st.torrentControls.flatMap (fun kv => kv.2.Errors)

/-- The trace of `Scheduler.Stop`'s teardown body: signal done, close the
listener, stop the event loop, wait for the three loops, then close every
active connection and deliver `ErrSchedulerStopped` to every pending
channel. -/
def stopTrace (st : SchedState) : List StopAction :=
  [.signalDone, .closeListener, .stopEventLoop, .waitLoops]
  ++ st.connState.active.map (fun pc => .closeActive pc.1 pc.2)
  ++ (pendingChans st).map (fun ch => .sendErr ch .schedulerStopped)

/-- Whether a teardown action closes an active connection. -/
def StopAction.isCloseActive : StopAction → Bool
  | .closeActive _ _ => true
  | _ => false

/-- Whether a teardown action delivers on a pending result channel. -/
def StopAction.isSendErr : StopAction → Bool
  | .sendErr _ _ => true
  | _ => false

/-! ## Concurrent Stop (claim C9)

`Stop` may be invoked by many goroutines at once; the body runs under
`s.once.Do`. We model the interleaving of `n` concurrent `Stop()` calls as
a transition system over caller program counters and the `sync.Once` cell,
and observe the teardown's completion and each caller's return as events. -/

/-- Program counter of one `Stop` caller: about to call `once.Do`; running
the teardown body (the winner); blocked inside `once.Do` behind the winner;
returned from `Stop`. -/
inductive StopPC
  | start
  | teardown
  | waiting
  | returned
  deriving DecidableEq, Repr

/-- Events observable across a concurrent `Stop` execution: the teardown
body completing, and caller `i` returning from `Stop`. -/
inductive StopEv
  | teardownDone
  | ret (i : Nat)
  deriving DecidableEq, Repr

/-- Global state of `n` concurrent `Stop` callers racing on the scheduler's
`once` cell: whether the body has completed, whether a caller is currently
inside it, each caller's program counter, and the event trace so far. -/
structure OnceState where
  done : Bool
  busy : Bool
  pcs : Nat → StopPC
  trace : List StopEv

/-- Modelled from the spec: Go's `sync.Once` contract, under which
`Scheduler.Stop` runs its teardown body. A caller at `start` may win the
`once.Do` when nobody holds it and it has not completed (`enter`), block
behind the current winner (`block`), or, when the body has already
completed, return at once (`lateStart`); the winner finishes the body and
returns (`finish`); a blocked caller returns once the body has completed
(`wake`). -/
inductive StopStep (n : Nat) : OnceState → OnceState → Prop
  | enter (st : OnceState) (i : Nat) (hi : i < n)
      (hpc : st.pcs i = .start) (hbusy : st.busy = false)
      (hdone : st.done = false) :
      StopStep n st
        { st with busy := true,
                  pcs := fun j => if j = i then .teardown else st.pcs j }
  | block (st : OnceState) (i : Nat) (hi : i < n)
      (hpc : st.pcs i = .start) (hbusy : st.busy = true) :
      StopStep n st
        { st with pcs := fun j => if j = i then .waiting else st.pcs j }
  | lateStart (st : OnceState) (i : Nat) (hi : i < n)
      (hpc : st.pcs i = .start) (hdone : st.done = true) :
      StopStep n st
        { st with pcs := fun j => if j = i then .returned else st.pcs j,
                  trace := st.trace ++ [.ret i] }
  | finish (st : OnceState) (i : Nat) (hi : i < n)
      (hpc : st.pcs i = .teardown) :
      StopStep n st
        { done := true, busy := false,
          pcs := fun j => if j = i then .returned else st.pcs j,
          trace := st.trace ++ [.teardownDone, .ret i] }
  | wake (st : OnceState) (i : Nat) (hi : i < n)
      (hpc : st.pcs i = .waiting) (hdone : st.done = true) :
      StopStep n st
        { st with pcs := fun j => if j = i then .returned else st.pcs j,
                  trace := st.trace ++ [.ret i] }

/-- Initial state: no caller has entered `once.Do`, nothing has run. -/
def initOnce : OnceState :=
  { done := false, busy := false, pcs := fun _ => .start, trace := [] }

/-- States reachable by interleaving `n` concurrent `Stop` callers. -/
inductive StopReachable (n : Nat) : OnceState → Prop
  | init : StopReachable n initOnce
  | step {st st' : OnceState} :
      StopReachable n st → StopStep n st st' → StopReachable n st'

/-- Safety invariant of the concurrent-`Stop` system: before the body
completes nothing is observable; once it completes the trace starts with
the single `teardownDone`; the body holder is unique and only exists while
the cell is busy and incomplete; returned callers have their return on the
trace. -/
def OnceInv (st : OnceState) : Prop :=
  (st.done = false → st.trace = [])
  ∧ (st.done = true →
      ∃ q, st.trace = .teardownDone :: q ∧ .teardownDone ∉ q)
  ∧ (st.busy = true → st.done = false)
  ∧ (st.busy = false → ∀ i, st.pcs i ≠ .teardown)
  ∧ (∀ i j, st.pcs i = .teardown → st.pcs j = .teardown → i = j)
  ∧ (∀ i, st.pcs i = .returned → .ret i ∈ st.trace)

/-- A one-caller run, after the caller entered `once.Do`: it holds the cell
and is about to run the teardown body. -/
def onceDemo1 : OnceState :=
  { initOnce with busy := true,
                  pcs := fun j => if j = 0 then .teardown else initOnce.pcs j }

/-- The one-caller run completed: the body ran and the caller returned. -/
def onceDemo2 : OnceState :=
  { done := true, busy := false,
    pcs := fun j => if j = 0 then .returned else onceDemo1.pcs j,
    trace := onceDemo1.trace ++ [.teardownDone, .ret 0] }

/-! ## Handshake lifecycle (claims C3, C8)

The incoming path is `handshakeIncomingConn` (receive the remote handshake)
followed, via the event loop, by `initIncomingConn` (archive lookup and
handshake reciprocation). The outgoing path is `initOutgoingConn` (dial,
send-then-receive handshake, peer-id check). Each fallible collaborator
call is parametrised by its outcome; closes and event sends are recorded
in a trace in program order. -/

/-- Observable actions of a handshake goroutine, in program order. -/
inductive NetAction
  | closeRaw (nc : Nat)    -- nc.Close() on the raw net.Conn
  | closeConn (c : Conn)   -- c.Close() on the wrapped conn
  | send (e : Event)       -- s.eventLoop.Send(e)
  deriving DecidableEq, Repr

/-- `Scheduler.handshakeIncomingConn`: block on `receiveHandshake`; on
failure close the raw connection and return (no event); on success send
`incomingHandshakeEvent`. `nc` tags the raw connection, `recv` is the
outcome of `receiveHandshake`. -/
def handshakeIncomingConn (nc : Nat) (recv : Except String Handshake) :
    List NetAction :=
  match recv with
  | .error _ => [.closeRaw nc]
  | .ok h => [.send (.incomingHandshake nc h)]

/-- `Scheduler.doInitIncomingConn`: look the torrent up in the archive, then
reciprocate the handshake; each failure closes the raw connection and wraps
the collaborator's error. -/
def doInitIncomingConn (nc : Nat) (getTorrent : Except String Torrent)
    (reciprocateHandshake : Torrent → Except String Conn) :
    Except Err (Conn × Torrent) × List NetAction :=
  match getTorrent with
  | .error m => (.error (.archive m), [.closeRaw nc])
  | .ok t =>
    match reciprocateHandshake t with
    | .error m => (.error (.reciprocate m), [.closeRaw nc])
    | .ok c => (.ok (c, t), [])

/-- `Scheduler.initIncomingConn`: run `doInitIncomingConn` and send exactly
one event: `failedHandshakeEvent` with the remote handshake's identity on
failure, `incomingConnEvent` on success. -/
def initIncomingConn (nc : Nat) (remoteHandshake : Handshake)
    (getTorrent : Except String Torrent)
    (reciprocateHandshake : Torrent → Except String Conn) : List NetAction :=
  match doInitIncomingConn nc getTorrent reciprocateHandshake with
  | (.error _, tr) =>
    tr ++ [.send (.failedHandshake remoteHandshake.peerID remoteHandshake.infoHash)]
  | (.ok (c, t), tr) => tr ++ [.send (.incomingConn c t)]

/-- `Scheduler.doInitOutgoingConn`: dial the peer (a failed dial leaves no
connection to close), run the send-then-receive handshake (failure closes
the raw connection), then verify the remote peer id against the expected
target (mismatch closes the wrapped connection). -/
def doInitOutgoingConn (peerID : PeerID) (dialResult : Except String Nat)
    (sendAndReceiveHandshake : Nat → Except String Conn) :
    Except Err Conn × List NetAction :=
  match dialResult with
  | .error m => (.error (.dial m), [])
  | .ok nc =>
    match sendAndReceiveHandshake nc with
    | .error m => (.error (.handshakeSend m), [.closeRaw nc])
    | .ok c =>
      if c.peerID ≠ peerID then (.error .unexpectedPeerID, [.closeConn c])
      else (.ok c, [])

/-- `Scheduler.initOutgoingConn`: run `doInitOutgoingConn` and send exactly
one event: `failedHandshakeEvent` with the target identity on failure,
`outgoingConnEvent` on success. -/
def initOutgoingConn (peerID : PeerID) (t : Torrent)
    (dialResult : Except String Nat)
    (sendAndReceiveHandshake : Nat → Except String Conn) : List NetAction :=
  match doInitOutgoingConn peerID dialResult sendAndReceiveHandshake with
  | (.error _, tr) => tr ++ [.send (.failedHandshake peerID t.infoHash)]
  | (.ok c, tr) => tr ++ [.send (.outgoingConn c t)]

/-- Whether an action closes a connection (raw or wrapped). -/
def NetAction.isClose : NetAction → Bool
  | .closeRaw _ => true
  | .closeConn _ => true
  | .send _ => false

/-- Whether an action sends a `failedHandshakeEvent`. -/
def NetAction.isFailedHandshakeSend : NetAction → Bool
  | .send (.failedHandshake _ _) => true
  | _ => false

/-- Every send of a `failedHandshakeEvent` in the trace is preceded by the
close of a connection. -/
def closePrecedesFailureSend (tr : List NetAction) : Prop :=
  ∀ i, ∀ hi : i < tr.length, (tr.get ⟨i, hi⟩).isFailedHandshakeSend = true →
    ∃ j, ∃ hj : j < tr.length, j < i ∧ (tr.get ⟨j, hj⟩).isClose = true

/-! ## Announce protocol (claims C6, C7)

`Scheduler.doAnnounce` builds an HTTP GET request to the tracker and decodes
the bencoded response. The HTTP round trip (`cli.Do` plus the body read and
`bencode.Unmarshal`) is the external outcome: we parametrise it by an oracle
`respond` mapping the request to either a transport error or a response with
a status code and the outcome of decoding its body. -/

/-- The scheduler fields `doAnnounce` reads: local peer identity, address,
zone, and the announce configuration. -/
structure SchedulerInfo where
  peerID : PeerID
  ip : String
  port : String
  zone : String
  trackerAddr : String
  announceTimeout : Nat
  deriving DecidableEq, Repr

/-- The HTTP request `doAnnounce` constructs, including the client timeout
it installs for the call. -/
structure AnnounceRequest where
  method : String
  scheme : String
  host : String
  path : String
  queryParams : List (String × String)
  clientTimeout : Nat
  deriving DecidableEq, Repr

/-- An HTTP response as `doAnnounce` consumes it: status code, plus the
outcome of running `bencode.Unmarshal` over the body (the decoded peer
list, or a decode error). -/
structure HttpResponse where
  status : Nat
  decodedPeers : Except String (List PeerInfo)
  deriving Repr

/-- The request-building half of `Scheduler.doAnnounce`: the `url.Values`
additions in source order, the `http.Request` literal, and the
`http.Client{Timeout: s.config.AnnounceTimeout}`. -/
def announceRequest (s : SchedulerInfo) (t : Torrent) : AnnounceRequest :=
  { method := "GET"
    scheme := "http"
    host := s.trackerAddr
    path := "/announce"
    queryParams :=
      [("info_hash", toString t.infoHash),
       ("peer_id", toString s.peerID),
       ("port", s.port),
       ("ip", s.ip),
       ("dc", s.zone),
       ("downloaded", toString t.bytesDownloaded),
       ("left", toString (t.length - t.bytesDownloaded)),
       ("uploaded", "0"),
       ("event", "")]
    clientTimeout := s.announceTimeout }

/-- `Scheduler.doAnnounce`: issue the request once and classify the outcome.
Returns the result together with the list of HTTP requests issued during
the call (so retries, if any existed, would be visible). -/
def doAnnounce (s : SchedulerInfo) (t : Torrent)
    (respond : AnnounceRequest → Except String HttpResponse) :
    Except Err (List PeerInfo) × List AnnounceRequest :=
  let req := announceRequest s t
  match respond req with
  | .error m => (.error (.requestFailed m), [req])
  | .ok resp =>
    if resp.status ≠ 200 then (.error (.requestNotOk resp.status), [req])
    else
      match resp.decodedPeers with
      | .error m => (.error (.unmarshalFailed m), [req])
      | .ok peers => (.ok peers, [req])

/-- `Scheduler.announce`: run `doAnnounce` for the dispatcher's torrent and
send exactly one event to the event loop describing the outcome. Returns
the list of events sent. -/
def announce (s : SchedulerInfo) (d : Dispatcher)
    (respond : AnnounceRequest → Except String HttpResponse) : List Event :=
  match (doAnnounce s d.torrent respond).1 with
  | .error _ => [.announceFailure d.id]
  | .ok peers => [.announceResponse d.torrent.infoHash peers]

end Scheduler

open Scheduler

/-- C2: every `AddTorrent` call returns a channel of capacity 1; an archive
lookup failure is delivered on the channel and no event reaches the event
loop; a refused `Send` delivers `ErrSchedulerStopped`; and in every case the
caller either already holds a delivery or the event is in the loop's hands,
so the caller is never left waiting with neither. -/
theorem C2_addTorrent (errcId : Nat) (archive : Except Err Torrent) (sendOk : Bool) :
    (addTorrent errcId archive sendOk).chanCapacity = 1
    ∧ (∀ e, archive = .error e →
        (addTorrent errcId archive sendOk).chanSends = [e]
        ∧ (addTorrent errcId archive sendOk).eventSent = none)
    ∧ (∀ t, archive = .ok t → sendOk = false →
        (addTorrent errcId archive sendOk).chanSends = [.schedulerStopped]
        ∧ (addTorrent errcId archive sendOk).eventSent = none)
    ∧ ((addTorrent errcId archive sendOk).chanSends ≠ []
        ∨ (addTorrent errcId archive sendOk).eventSent ≠ none) := by
  cases archive with
  | error e => simp [addTorrent]
  | ok t =>
    cases sendOk with
    | false => simp [addTorrent]
    | true => simp [addTorrent]

/-- Witness for C2 at a concrete input: a failed archive lookup. -/
theorem C2_addTorrent_witness :
    (addTorrent 0 (.error (.archive "gone")) true).chanSends = [.archive "gone"]
    ∧ (addTorrent 0 (.error (.archive "gone")) true).eventSent = none := by
  have h := C2_addTorrent 0 (.error (.archive "gone")) true
  exact h.2.1 (.archive "gone") rfl

/-- C6: `doAnnounce` issues exactly one GET request to `/announce` carrying
exactly the query parameters `info_hash, peer_id, port, ip, dc, downloaded,
left` (length minus downloaded), `uploaded` (always "0") and `event`
(always empty), under the configured announce timeout; it returns the
decoded peer list exactly on a 200 response whose body decodes, and an
error exactly when the request fails, the status is not 200, or the body
fails to decode. -/
theorem C6_doAnnounce (s : SchedulerInfo) (t : Torrent)
    (respond : AnnounceRequest → Except String HttpResponse) :
    (announceRequest s t).method = "GET"
    ∧ (announceRequest s t).path = "/announce"
    ∧ (announceRequest s t).clientTimeout = s.announceTimeout
    ∧ (announceRequest s t).queryParams =
        [("info_hash", toString t.infoHash),
         ("peer_id", toString s.peerID),
         ("port", s.port),
         ("ip", s.ip),
         ("dc", s.zone),
         ("downloaded", toString t.bytesDownloaded),
         ("left", toString (t.length - t.bytesDownloaded)),
         ("uploaded", "0"),
         ("event", "")]
    ∧ (doAnnounce s t respond).2 = [announceRequest s t]
    ∧ (∀ peers, (doAnnounce s t respond).1 = .ok peers ↔
        respond (announceRequest s t) = .ok ⟨200, .ok peers⟩)
    ∧ ((∃ e, (doAnnounce s t respond).1 = .error e) ↔
        (∃ m, respond (announceRequest s t) = .error m)
        ∨ (∃ r, respond (announceRequest s t) = .ok r ∧ r.status ≠ 200)
        ∨ (∃ r m, respond (announceRequest s t) = .ok r ∧ r.status = 200
            ∧ r.decodedPeers = .error m)) := by
  refine ⟨rfl, rfl, rfl, rfl, ?_, ?_, ?_⟩
  · unfold doAnnounce
    rcases hr : respond (announceRequest s t) with m | ⟨st, dp⟩
    · simp [hr]
    · rcases dp with m | ps <;> by_cases hs : st = 200 <;> simp [hr, hs]
  · intro peers
    unfold doAnnounce
    rcases hr : respond (announceRequest s t) with m | ⟨st, dp⟩
    · simp [hr]
    · rcases dp with m | ps <;> by_cases hs : st = 200 <;>
        simp [hr, hs, HttpResponse.mk.injEq, eq_comm]
  · unfold doAnnounce
    rcases hr : respond (announceRequest s t) with m | ⟨st, dp⟩
    · simp [hr]
    · rcases dp with m | ps <;> by_cases hs : st = 200 <;> simp [hr, hs]

/-- A successful `MovePendingToActive` leaves the connection registered as
active in the resulting tracker state. -/
theorem mem_active_of_movePendingToActive (cs0 cs : ConnState) (c : Conn)
    (h : cs0.MovePendingToActive c = .ok cs) :
    (c.peerID, c.infoHash) ∈ cs.active := by
  by_cases h1 : (c.peerID, c.infoHash) ∈ cs0.active
  · simp [ConnState.MovePendingToActive, h1] at h
  · by_cases h2 : (c.peerID, c.infoHash) ∈ cs0.blacklist
    · simp [ConnState.MovePendingToActive, h1, h2] at h
    · simp [ConnState.MovePendingToActive, h1, h2] at h
      rw [← h]
      exact List.mem_cons_self _ _

/-- C4: on a validated connection whose torrent has no control yet, the
incoming path creates a control via the dispatcher factory and registers it
under the info hash before handing the connection to that dispatcher, while
the outgoing path fails with an error and creates nothing. -/
theorem C4_missing_control (st : SchedState) (addConn : Nat → Conn → Option String)
    (newDispatcherId : Nat) (c : Conn) (t : Torrent) (cs : ConnState)
    (hmove : st.connState.MovePendingToActive c = .ok cs)
    (hmiss : lookupControl st.torrentControls t.infoHash = none) :
    lookupControl
        (addIncomingConn st addConn newDispatcherId c t).2.1.torrentControls
        t.infoHash
      = some (newTorrentControl newDispatcherId)
    ∧ (addIncomingConn st addConn newDispatcherId c t).2.2 =
        [.consultControls t.infoHash,
         .createControl t.infoHash newDispatcherId,
         .dispatchConn newDispatcherId c]
    ∧ (addOutgoingConn st addConn c t).1 = .error .torrentNotCreated
    ∧ (addOutgoingConn st addConn c t).2.1.torrentControls = st.torrentControls
    ∧ (∀ h d, AddAction.createControl h d ∉ (addOutgoingConn st addConn c t).2.2)
    ∧ (∀ d c', AddAction.dispatchConn d c' ∉ (addOutgoingConn st addConn c t).2.2) := by
  cases haddc : addConn newDispatcherId c <;>
    refine ⟨?_, ?_, ?_, ?_, ?_, ?_⟩ <;>
      simp [addIncomingConn, addOutgoingConn, hmove, hmiss, haddc, lookupControl,
        newTorrentControl]

/-- Witness for C4 at a concrete input: an unseen torrent on an empty
scheduler state. -/
theorem C4_missing_control_witness :
    lookupControl
        (addIncomingConn ⟨⟨[], []⟩, []⟩ (fun _ _ => none) 7 ⟨1, 2, 3⟩
          ⟨"t", 2, 10, 0⟩).2.1.torrentControls 2
      = some (newTorrentControl 7) := by
  have h := C4_missing_control ⟨⟨[], []⟩, []⟩ (fun _ _ => none) 7 ⟨1, 2, 3⟩
    ⟨"t", 2, 10, 0⟩ ⟨[(1, 2)], []⟩ rfl rfl
  exact h.1

/-- C5: when the tracker refuses to move the connection from pending to
active, both admission paths close the connection and abort with an error,
touching no `TorrentControl`: the scheduler state is unchanged and the
trace holds only the close — no consult, creation or dispatch. -/
theorem C5_move_failure_aborts (st : SchedState)
    (addConn : Nat → Conn → Option String) (newDispatcherId : Nat)
    (c : Conn) (t : Torrent) (e : Err)
    (hmove : st.connState.MovePendingToActive c = .error e) :
    (addOutgoingConn st addConn c t).1 = .error (.cannotAddConnScheduler e)
    ∧ (addOutgoingConn st addConn c t).2.1 = st
    ∧ (addOutgoingConn st addConn c t).2.2 = [.closeConn c]
    ∧ (addIncomingConn st addConn newDispatcherId c t).1 =
        .error (.cannotAddConnScheduler e)
    ∧ (addIncomingConn st addConn newDispatcherId c t).2.1 = st
    ∧ (addIncomingConn st addConn newDispatcherId c t).2.2 = [.closeConn c] := by
  refine ⟨?_, ?_, ?_, ?_, ?_, ?_⟩ <;> simp [addOutgoingConn, addIncomingConn, hmove]

/-- Witness for C5 at a concrete input: a duplicate connection. -/
theorem C5_move_failure_aborts_witness :
    (addOutgoingConn ⟨⟨[(1, 2)], []⟩, []⟩ (fun _ _ => none) ⟨1, 2, 3⟩
        ⟨"t", 2, 10, 0⟩).2.2 = [.closeConn ⟨1, 2, 3⟩] := by
  have h := C5_move_failure_aborts ⟨⟨[(1, 2)], []⟩, []⟩ (fun _ _ => none) 7
    ⟨1, 2, 3⟩ ⟨"t", 2, 10, 0⟩ .duplicateConn rfl
  exact h.2.2.1

/-- C10: once a connection has been moved to active, a dispatcher rejection
(on either path) or a missing control on the outgoing path returns an error
without closing the connection, which stays registered as active in the
tracker. -/
theorem C10_active_conn_leak (st : SchedState)
    (addConn : Nat → Conn → Option String) (newDispatcherId : Nat)
    (c : Conn) (t : Torrent) (cs : ConnState)
    (hmove : st.connState.MovePendingToActive c = .ok cs) :
    (lookupControl st.torrentControls t.infoHash = none →
      (addOutgoingConn st addConn c t).1 = .error .torrentNotCreated
      ∧ (∀ c', AddAction.closeConn c' ∉ (addOutgoingConn st addConn c t).2.2)
      ∧ (c.peerID, c.infoHash) ∈ (addOutgoingConn st addConn c t).2.1.connState.active)
    ∧ (∀ ctrl m, lookupControl st.torrentControls t.infoHash = some ctrl →
        addConn ctrl.DispatcherId c = some m →
        (addOutgoingConn st addConn c t).1 = .error (.cannotAddConnDispatcher m)
        ∧ (∀ c', AddAction.closeConn c' ∉ (addOutgoingConn st addConn c t).2.2)
        ∧ (c.peerID, c.infoHash) ∈ (addOutgoingConn st addConn c t).2.1.connState.active)
    ∧ (∀ m, lookupControl st.torrentControls t.infoHash = none →
        addConn newDispatcherId c = some m →
        (addIncomingConn st addConn newDispatcherId c t).1 =
          .error (.cannotAddConnDispatcher m)
        ∧ (∀ c', AddAction.closeConn c' ∉
            (addIncomingConn st addConn newDispatcherId c t).2.2)
        ∧ (c.peerID, c.infoHash) ∈
            (addIncomingConn st addConn newDispatcherId c t).2.1.connState.active)
    ∧ (∀ ctrl m, lookupControl st.torrentControls t.infoHash = some ctrl →
        addConn ctrl.DispatcherId c = some m →
        (addIncomingConn st addConn newDispatcherId c t).1 =
          .error (.cannotAddConnDispatcher m)
        ∧ (∀ c', AddAction.closeConn c' ∉
            (addIncomingConn st addConn newDispatcherId c t).2.2)
        ∧ (c.peerID, c.infoHash) ∈
            (addIncomingConn st addConn newDispatcherId c t).2.1.connState.active) := by
  have hmem := mem_active_of_movePendingToActive _ _ _ hmove
  refine ⟨?_, ?_, ?_, ?_⟩
  · intro hmiss
    refine ⟨?_, ?_, ?_⟩ <;> simp [addOutgoingConn, hmove, hmiss, hmem]
  · intro ctrl m hfound haddc
    refine ⟨?_, ?_, ?_⟩ <;> simp [addOutgoingConn, hmove, hfound, haddc, hmem]
  · intro m hmiss haddc
    refine ⟨?_, ?_, ?_⟩ <;>
      simp [addIncomingConn, hmove, hmiss, newTorrentControl, haddc, hmem]
  · intro ctrl m hfound haddc
    refine ⟨?_, ?_, ?_⟩ <;> simp [addIncomingConn, hmove, hfound, haddc, hmem]

/-- Witness for C10 at a concrete input: an outgoing connection for an
unknown torrent stays active and unclosed. -/
theorem C10_active_conn_leak_witness :
    (addOutgoingConn ⟨⟨[], []⟩, []⟩ (fun _ _ => none) ⟨1, 2, 3⟩
        ⟨"t", 2, 10, 0⟩).1 = .error .torrentNotCreated
    ∧ (1, 2) ∈ (addOutgoingConn ⟨⟨[], []⟩, []⟩ (fun _ _ => none) ⟨1, 2, 3⟩
        ⟨"t", 2, 10, 0⟩).2.1.connState.active := by
  have h := C10_active_conn_leak ⟨⟨[], []⟩, []⟩ (fun _ _ => none) 7 ⟨1, 2, 3⟩
    ⟨"t", 2, 10, 0⟩ ⟨[(1, 2)], []⟩ rfl
  have h1 := h.1 rfl
  exact ⟨h1.1, h1.2.2⟩

/-- A two-element trace whose first action is a close satisfies
`closePrecedesFailureSend`. -/
theorem closePrecedesFailureSend_pair (a b : NetAction) (ha : a.isClose = true) :
    closePrecedesFailureSend [a, b] := by
  intro i hi hsend
  match i, hi with
  | 0, _ =>
    exfalso
    cases a with
    | closeRaw nc => simp [NetAction.isFailedHandshakeSend, List.get] at hsend
    | closeConn c => simp [NetAction.isFailedHandshakeSend, List.get] at hsend
    | send e => simp [NetAction.isClose] at ha
  | 1, _ => exact ⟨0, by omega, by omega, ha⟩

/-- C3: whenever a handshake fails — at receive, archive lookup,
reciprocation, dial-side handshake, or peer-id verification — the
connection is closed before the `failedHandshakeEvent` is sent (or before
the goroutine returns, in the receive case where no event is sent). -/
theorem C3_handshake_failure_closes_before_event :
    (∀ (nc : Nat) (m : String),
      handshakeIncomingConn nc (.error m) = [.closeRaw nc])
    ∧ (∀ (nc : Nat) (h : Handshake) (m : String)
        (recip : Torrent → Except String Conn),
        closePrecedesFailureSend (initIncomingConn nc h (.error m) recip))
    ∧ (∀ (nc : Nat) (h : Handshake) (t : Torrent) (m : String)
        (recip : Torrent → Except String Conn), recip t = .error m →
        closePrecedesFailureSend (initIncomingConn nc h (.ok t) recip))
    ∧ (∀ (peerID : PeerID) (t : Torrent) (nc : Nat) (m : String)
        (srh : Nat → Except String Conn), srh nc = .error m →
        closePrecedesFailureSend (initOutgoingConn peerID t (.ok nc) srh))
    ∧ (∀ (peerID : PeerID) (t : Torrent) (nc : Nat) (c : Conn)
        (srh : Nat → Except String Conn), srh nc = .ok c → c.peerID ≠ peerID →
        closePrecedesFailureSend (initOutgoingConn peerID t (.ok nc) srh)) := by
  refine ⟨fun nc m => rfl, ?_, ?_, ?_, ?_⟩
  · intro nc h m recip
    have : initIncomingConn nc h (.error m) recip =
        [.closeRaw nc, .send (.failedHandshake h.peerID h.infoHash)] := rfl
    rw [this]
    exact closePrecedesFailureSend_pair _ _ rfl
  · intro nc h t m recip hrecip
    have : initIncomingConn nc h (.ok t) recip =
        [.closeRaw nc, .send (.failedHandshake h.peerID h.infoHash)] := by
      simp [initIncomingConn, doInitIncomingConn, hrecip]
    rw [this]
    exact closePrecedesFailureSend_pair _ _ rfl
  · intro peerID t nc m srh hsrh
    have : initOutgoingConn peerID t (.ok nc) srh =
        [.closeRaw nc, .send (.failedHandshake peerID t.infoHash)] := by
      simp [initOutgoingConn, doInitOutgoingConn, hsrh]
    rw [this]
    exact closePrecedesFailureSend_pair _ _ rfl
  · intro peerID t nc c srh hsrh hne
    have : initOutgoingConn peerID t (.ok nc) srh =
        [.closeConn c, .send (.failedHandshake peerID t.infoHash)] := by
      simp [initOutgoingConn, doInitOutgoingConn, hsrh, hne]
    rw [this]
    exact closePrecedesFailureSend_pair _ _ rfl

/-- Witness for C3 at a concrete input: a failed reciprocation closes the
raw connection before the failure event. -/
theorem C3_handshake_failure_witness :
    closePrecedesFailureSend
      (initIncomingConn 4 ⟨1, 2, "n"⟩ (.ok ⟨"n", 2, 10, 0⟩)
        (fun _ => .error "bad")) :=
  C3_handshake_failure_closes_before_event.2.2.1 4 ⟨1, 2, "n"⟩
    ⟨"n", 2, 10, 0⟩ "bad" (fun _ => .error "bad") rfl

/-- C8: on an outbound attempt, when dial and handshake succeed but the
remote peer id differs from the expected target, the wrapped connection is
closed, the attempt fails with the hard `unexpectedPeerID` error, and no
`outgoingConnEvent` is ever sent for it. -/
theorem C8_peer_id_mismatch (peerID : PeerID) (t : Torrent) (nc : Nat)
    (c : Conn) (srh : Nat → Except String Conn)
    (hsrh : srh nc = .ok c) (hne : c.peerID ≠ peerID) :
    (doInitOutgoingConn peerID (.ok nc) srh).1 = .error .unexpectedPeerID
    ∧ (doInitOutgoingConn peerID (.ok nc) srh).2 = [.closeConn c]
    ∧ initOutgoingConn peerID t (.ok nc) srh =
        [.closeConn c, .send (.failedHandshake peerID t.infoHash)]
    ∧ ∀ (c' : Conn) (t' : Torrent),
        NetAction.send (.outgoingConn c' t') ∉ initOutgoingConn peerID t (.ok nc) srh := by
  refine ⟨?_, ?_, ?_, ?_⟩
  · simp [doInitOutgoingConn, hsrh, hne]
  · simp [doInitOutgoingConn, hsrh, hne]
  · simp [initOutgoingConn, doInitOutgoingConn, hsrh, hne]
  · intro c' t'
    simp [initOutgoingConn, doInitOutgoingConn, hsrh, hne]

/-- Witness for C8 at a concrete input: remote claims peer id 5, expected 9. -/
theorem C8_peer_id_mismatch_witness :
    (doInitOutgoingConn 9 (.ok 0) (fun _ => .ok ⟨5, 2, 0⟩)).1 =
      .error .unexpectedPeerID
    ∧ (doInitOutgoingConn 9 (.ok 0) (fun _ => .ok ⟨5, 2, 0⟩)).2 =
      [.closeConn ⟨5, 2, 0⟩] := by
  have h := C8_peer_id_mismatch 9 ⟨"t", 2, 10, 0⟩ 0 ⟨5, 2, 0⟩
    (fun _ => .ok ⟨5, 2, 0⟩) rfl (by decide)
  exact ⟨h.1, h.2.1⟩

/-- Witness for C6 at a concrete input: a 200 response that decodes to one
peer yields that peer list. -/
theorem C6_doAnnounce_witness :
    (doAnnounce ⟨1, "a", "b", "c", "tr", 5⟩ ⟨"t", 9, 10, 3⟩
        (fun _ => .ok ⟨200, .ok [⟨2, "ip", 80⟩]⟩)).1 = .ok [⟨2, "ip", 80⟩] := by
  have h := C6_doAnnounce ⟨1, "a", "b", "c", "tr", 5⟩ ⟨"t", 9, 10, 3⟩
    (fun _ => .ok ⟨200, .ok [⟨2, "ip", 80⟩]⟩)
  exact (h.2.2.2.2.2.1 [⟨2, "ip", 80⟩]).mpr rfl

/-- C7: one `announce` attempt sends exactly one event: `announceFailureEvent`
carrying the dispatcher when `doAnnounce` fails, `announceResponseEvent`
carrying the torrent's info hash and the returned peers when it succeeds. -/
theorem C7_announce (s : SchedulerInfo) (d : Dispatcher)
    (respond : AnnounceRequest → Except String HttpResponse) :
    (announce s d respond).length = 1
    ∧ (∀ e, (doAnnounce s d.torrent respond).1 = .error e →
        announce s d respond = [.announceFailure d.id])
    ∧ (∀ peers, (doAnnounce s d.torrent respond).1 = .ok peers →
        announce s d respond = [.announceResponse d.torrent.infoHash peers]) := by
  unfold announce
  rcases h : (doAnnounce s d.torrent respond).1 with e | peers <;> simp

/-- Witness for C7 at a concrete input: a tracker timeout. -/
theorem C7_announce_witness :
    announce ⟨1, "a", "b", "c", "tr", 5⟩ ⟨7, ⟨"t", 9, 10, 3⟩⟩
        (fun _ => .error "timeout")
      = [.announceFailure 7] := by
  have h := C7_announce ⟨1, "a", "b", "c", "tr", 5⟩ ⟨7, ⟨"t", 9, 10, 3⟩⟩
    (fun _ => .error "timeout")
  exact h.2.1 (.requestFailed "timeout") rfl

/-- In a split trace whose right part has no `p`-actions and whose left
part has no `q`-actions, every `p`-action precedes every `q`-action. -/
theorem pos_lt_of_split {α : Type} (p q : α → Bool) (l r : List α)
    (hpr : ∀ x ∈ r, p x = false) (hql : ∀ x ∈ l, q x = false) :
    ∀ i j, ∀ hi : i < (l ++ r).length, ∀ hj : j < (l ++ r).length,
      p ((l ++ r).get ⟨i, hi⟩) = true → q ((l ++ r).get ⟨j, hj⟩) = true →
      i < j := by
  induction l with
  | nil =>
    intro i j hi hj hpi hqj
    exfalso
    have hmem : (([] : List α) ++ r).get ⟨i, hi⟩ ∈ r :=
      List.get_mem _ _ _
    have := hpr _ hmem
    rw [hpi] at this
    exact Bool.noConfusion this
  | cons a l ih =>
    intro i j hi hj hpi hqj
    cases j with
    | zero =>
      exfalso
      have hqa : q a = false := hql a (List.mem_cons_self a l)
      have : q a = true := hqj
      rw [hqa] at this
      exact Bool.noConfusion this
    | succ j' =>
      cases i with
      | zero => exact Nat.succ_pos j'
      | succ i' =>
        have hql' : ∀ x ∈ l, q x = false := fun x hx =>
          hql x (List.mem_cons_of_mem a hx)
        exact Nat.succ_lt_succ
          (ih hql' i' j' (Nat.lt_of_succ_lt_succ hi) (Nat.lt_of_succ_lt_succ hj)
            hpi hqj)

/-- Counting one channel's deliveries across the pending-channel
notification sweep reduces to counting the channel itself. -/
theorem count_map_sendErr (l : List Nat) (x : Nat) :
    (l.map (fun c => StopAction.sendErr c .schedulerStopped)).count
        (.sendErr x .schedulerStopped) = l.count x := by
  induction l with
  | nil => rfl
  | cons a l ih =>
    simp only [List.map_cons, List.count_cons, ih]
    by_cases hax : a = x
    · subst hax
      simp
    · simp [hax]

/-- C1: the `Stop` teardown trace begins with signalling done, closing the
listener, stopping the event loop and waiting for the loops, in that
order; every active connection is then closed, and all closes precede all
pending-channel notifications; a channel pending exactly once receives
`ErrSchedulerStopped` exactly once. -/
theorem C1_stop_teardown (st : SchedState) (ch : Nat)
    (hch : (pendingChans st).count ch = 1) :
    (stopTrace st).take 4 =
        [.signalDone, .closeListener, .stopEventLoop, .waitLoops]
    ∧ stopTrace st =
        ([.signalDone, .closeListener, .stopEventLoop, .waitLoops]
          ++ st.connState.active.map (fun pc => .closeActive pc.1 pc.2))
          ++ (pendingChans st).map (fun c => .sendErr c .schedulerStopped)
    ∧ (∀ p h, (p, h) ∈ st.connState.active →
        StopAction.closeActive p h ∈ stopTrace st)
    ∧ (∀ i j, ∀ hi : i < (stopTrace st).length,
        ∀ hj : j < (stopTrace st).length,
        ((stopTrace st).get ⟨i, hi⟩).isCloseActive = true →
        ((stopTrace st).get ⟨j, hj⟩).isSendErr = true → i < j)
    ∧ (stopTrace st).count (.sendErr ch .schedulerStopped) = 1 := by
  refine ⟨rfl, ?_, ?_, ?_, ?_⟩
  · unfold stopTrace
    rfl
  · intro p h hmem
    exact List.mem_append_left _
      (List.mem_append_right _ (List.mem_map_of_mem _ hmem))
  · intro i j hi hj hci hsj
    exact pos_lt_of_split StopAction.isCloseActive StopAction.isSendErr
      ([.signalDone, .closeListener, .stopEventLoop, .waitLoops]
        ++ st.connState.active.map (fun pc => .closeActive pc.1 pc.2))
      ((pendingChans st).map (fun c => .sendErr c .schedulerStopped))
      (by
        intro x hx
        obtain ⟨a, -, rfl⟩ := List.mem_map.mp hx
        rfl)
      (by
        intro x hx
        rcases List.mem_append.mp hx with h4 | hB
        · simp only [List.mem_cons, List.not_mem_nil, or_false] at h4
          rcases h4 with rfl | rfl | rfl | rfl <;> rfl
        · obtain ⟨a, -, rfl⟩ := List.mem_map.mp hB
          rfl)
      i j hi hj hci hsj
  · have h4 : List.count (StopAction.sendErr ch .schedulerStopped)
        [StopAction.signalDone, .closeListener, .stopEventLoop, .waitLoops]
          = 0 := by
      rw [List.count_eq_zero]
      simp
    have hB : List.count (StopAction.sendErr ch .schedulerStopped)
        (st.connState.active.map (fun pc => StopAction.closeActive pc.1 pc.2))
          = 0 := by
      rw [List.count_eq_zero]
      simp
    unfold stopTrace
    rw [List.count_append, List.count_append, h4, hB,
      count_map_sendErr (pendingChans st) ch, hch]

/-- Witness for C1 at a concrete input: one active connection and one
pending channel. -/
theorem C1_stop_teardown_witness :
    (stopTrace ⟨⟨[(1, 2)], []⟩, [(2, ⟨[5], 7, false⟩)]⟩).count
        (.sendErr 5 .schedulerStopped) = 1 := by
  have h := C1_stop_teardown ⟨⟨[(1, 2)], []⟩, [(2, ⟨[5], 7, false⟩)]⟩ 5 rfl
  exact h.2.2.2.2

/-- The concurrent-`Stop` invariant holds in the initial state. -/
theorem onceInv_init : OnceInv initOnce := by
  refine ⟨fun _ => rfl, ?_, fun _ => rfl, ?_, ?_, ?_⟩
  · intro h
    exact absurd h (by simp [initOnce])
  · intro _ i h
    simp [initOnce] at h
  · intro i j hi hj
    simp [initOnce] at hi
  · intro i h
    simp [initOnce] at h

/-- The concurrent-`Stop` invariant is preserved by every step. -/
theorem onceInv_step {n : Nat} {st st' : OnceState}
    (hinv : OnceInv st) (hs : StopStep n st st') : OnceInv st' := by
  obtain ⟨h1, h2, h3, h4, h5, h6⟩ := hinv
  cases hs with
  | enter i hi hpc hbusy hdone =>
    refine ⟨fun _ => h1 hdone, ?_, fun _ => hdone, ?_, ?_, ?_⟩
    · intro hd
      dsimp only at hd
      rw [hdone] at hd
      exact Bool.noConfusion hd
    · intro hb
      dsimp only at hb
      exact Bool.noConfusion hb
    · intro i' j' hpi hpj
      dsimp only at hpi hpj
      by_cases hii : i' = i
      · by_cases hjj : j' = i
        · rw [hii, hjj]
        · rw [if_neg hjj] at hpj
          exact absurd hpj (h4 hbusy j')
      · rw [if_neg hii] at hpi
        exact absurd hpi (h4 hbusy i')
    · intro i' hpi
      dsimp only at hpi ⊢
      by_cases hii : i' = i
      · rw [if_pos hii] at hpi
        exact StopPC.noConfusion hpi
      · rw [if_neg hii] at hpi
        exact h6 i' hpi
  | block i hi hpc hbusy =>
    refine ⟨h1, h2, h3, ?_, ?_, ?_⟩
    · intro hb
      dsimp only at hb
      rw [hbusy] at hb
      exact Bool.noConfusion hb
    · intro i' j' hpi hpj
      dsimp only at hpi hpj
      by_cases hii : i' = i
      · rw [if_pos hii] at hpi
        exact StopPC.noConfusion hpi
      · by_cases hjj : j' = i
        · rw [if_pos hjj] at hpj
          exact StopPC.noConfusion hpj
        · rw [if_neg hii] at hpi
          rw [if_neg hjj] at hpj
          exact h5 i' j' hpi hpj
    · intro i' hpi
      dsimp only at hpi ⊢
      by_cases hii : i' = i
      · rw [if_pos hii] at hpi
        exact StopPC.noConfusion hpi
      · rw [if_neg hii] at hpi
        exact h6 i' hpi
  | lateStart i hi hpc hdone =>
    refine ⟨?_, ?_, ?_, ?_, ?_, ?_⟩
    · intro hd
      dsimp only at hd
      rw [hdone] at hd
      exact Bool.noConfusion hd
    · intro _
      obtain ⟨q, hq, hnq⟩ := h2 hdone
      refine ⟨q ++ [.ret i], ?_, ?_⟩
      · dsimp only
        rw [hq]
        rfl
      · simp [hnq]
    · intro hb
      exact h3 hb
    · intro hb i'
      dsimp only
      by_cases hii : i' = i
      · rw [if_pos hii]
        exact fun h => StopPC.noConfusion h
      · rw [if_neg hii]
        exact h4 hb i'
    · intro i' j' hpi hpj
      dsimp only at hpi hpj
      by_cases hii : i' = i
      · rw [if_pos hii] at hpi
        exact StopPC.noConfusion hpi
      · by_cases hjj : j' = i
        · rw [if_pos hjj] at hpj
          exact StopPC.noConfusion hpj
        · rw [if_neg hii] at hpi
          rw [if_neg hjj] at hpj
          exact h5 i' j' hpi hpj
    · intro i' hpi
      dsimp only at hpi ⊢
      by_cases hii : i' = i
      · subst hii
        exact List.mem_append_right _ (List.mem_singleton.mpr rfl)
      · rw [if_neg hii] at hpi
        exact List.mem_append_left _ (h6 i' hpi)
  | finish i hi hpc =>
    have hbusy : st.busy = true := by
      by_contra hb
      have hb' : st.busy = false := by
        cases hcb : st.busy
        · rfl
        · exact absurd hcb hb
      exact absurd hpc (h4 hb' i)
    have hdone : st.done = false := h3 hbusy
    have htr : st.trace = [] := h1 hdone
    refine ⟨?_, ?_, ?_, ?_, ?_, ?_⟩
    · intro hd
      dsimp only at hd
      exact Bool.noConfusion hd
    · intro _
      dsimp only
      refine ⟨[.ret i], ?_, ?_⟩
      · rw [htr]
        rfl
      · simp
    · intro hb
      dsimp only at hb
      exact Bool.noConfusion hb
    · intro _ i'
      dsimp only
      by_cases hii : i' = i
      · rw [if_pos hii]
        exact fun h => StopPC.noConfusion h
      · rw [if_neg hii]
        intro h
        exact hii (h5 i' i h hpc)
    · intro i' j' hpi hpj
      dsimp only at hpi hpj
      by_cases hii : i' = i
      · rw [if_pos hii] at hpi
        exact StopPC.noConfusion hpi
      · rw [if_neg hii] at hpi
        exact absurd (h5 i' i hpi hpc) hii
    · intro i' hpi
      dsimp only at hpi ⊢
      rw [htr]
      by_cases hii : i' = i
      · subst hii
        simp
      · rw [if_neg hii] at hpi
        have hmem := h6 i' hpi
        rw [htr] at hmem
        exact absurd hmem (List.not_mem_nil _)
  | wake i hi hpc hdone =>
    refine ⟨?_, ?_, ?_, ?_, ?_, ?_⟩
    · intro hd
      dsimp only at hd
      rw [hdone] at hd
      exact Bool.noConfusion hd
    · intro _
      obtain ⟨q, hq, hnq⟩ := h2 hdone
      refine ⟨q ++ [.ret i], ?_, ?_⟩
      · dsimp only
        rw [hq]
        rfl
      · simp [hnq]
    · intro hb
      exact h3 hb
    · intro hb i'
      dsimp only
      by_cases hii : i' = i
      · rw [if_pos hii]
        exact fun h => StopPC.noConfusion h
      · rw [if_neg hii]
        exact h4 hb i'
    · intro i' j' hpi hpj
      dsimp only at hpi hpj
      by_cases hii : i' = i
      · rw [if_pos hii] at hpi
        exact StopPC.noConfusion hpi
      · by_cases hjj : j' = i
        · rw [if_pos hjj] at hpj
          exact StopPC.noConfusion hpj
        · rw [if_neg hii] at hpi
          rw [if_neg hjj] at hpj
          exact h5 i' j' hpi hpj
    · intro i' hpi
      dsimp only at hpi ⊢
      by_cases hii : i' = i
      · subst hii
        exact List.mem_append_right _ (List.mem_singleton.mpr rfl)
      · rw [if_neg hii] at hpi
        exact List.mem_append_left _ (h6 i' hpi)

/-- The concurrent-`Stop` invariant holds in every reachable state. -/
theorem onceInv_of_reachable {n : Nat} {st : OnceState}
    (h : StopReachable n st) : OnceInv st := by
  induction h with
  | init => exact onceInv_init
  | step _ hs ih => exact onceInv_step ih hs

/-- C9: in any interleaving of `n > 0` concurrent `Stop` callers in which
every caller has returned, the teardown body ran exactly once, and each
caller's return comes strictly after the teardown completed. -/
theorem C9_concurrent_stop (n : Nat) (st : OnceState) (hn : 0 < n)
    (hreach : StopReachable n st)
    (hall : ∀ i, i < n → st.pcs i = .returned) :
    st.trace.count .teardownDone = 1
    ∧ ∀ i, i < n → ∃ q, st.trace = .teardownDone :: q ∧ .ret i ∈ q := by
  obtain ⟨h1, h2, h3, h4, h5, h6⟩ := onceInv_of_reachable hreach
  have hret0 : StopEv.ret 0 ∈ st.trace := h6 0 (hall 0 hn)
  have hdone : st.done = true := by
    cases hcd : st.done
    · rw [h1 hcd] at hret0
      exact absurd hret0 (List.not_mem_nil _)
    · rfl
  obtain ⟨q, hq, hnq⟩ := h2 hdone
  constructor
  · rw [hq, List.count_cons]
    rw [List.count_eq_zero.mpr hnq]
    simp
  · intro i hi
    refine ⟨q, hq, ?_⟩
    have hmem : StopEv.ret i ∈ st.trace := h6 i (hall i hi)
    rw [hq] at hmem
    rcases List.mem_cons.mp hmem with h | h
    · exact StopEv.noConfusion h
    · exact h

/-- Witness for C9 at a concrete input: a single caller enters `once.Do`,
runs the teardown and returns. -/
theorem C9_concurrent_stop_witness :
    onceDemo2.trace.count .teardownDone = 1 := by
  have hreach : StopReachable 1 onceDemo2 :=
    .step (.step .init (.enter initOnce 0 (by decide) rfl rfl rfl))
      (.finish onceDemo1 0 (by decide) rfl)
  have h := C9_concurrent_stop 1 onceDemo2 (by decide) hreach ?_
  · exact h.1
  · intro i hi
    have hz : i = 0 := by omega
    subst hz
    rfl
